/-
Verification of the initial block synchronization engine
(beacon-chain/sync/initial-sync/service.go).

The engine is shallowly embedded: the `InitialSync` receiver's fields that
the sync logic reads or writes become the `SyncState` structure, each Go
method becomes a Lean function from state to state, and every call into an
external collaborator (the p2p adapter's Broadcast/Send, the beacon DB's
SaveBlock/SaveCrystallizedState, and the sync service's ResumeSync) is
recorded as an `Effect` in an output trace.

Modelling choices:
- slots are `Nat` (the Go code only stores received uint64 values and
  compares/adds 1; no claim involves wraparound at 2^64);
- the 32-byte zero hash `[32]byte{}` is modelled as the `Nat` value `0`,
  any other hash as a nonzero `Nat`; `block.Hash()` / `cState.Hash()` are
  modelled as total (their error paths only guard logging or unreachable
  returns in the analysed claims);
- the beacon DB's `SaveBlock` outcome is an oracle `db : Nat → Bool`
  giving success/failure per block slot; `SaveCrystallizedState` failure
  only logs in the source, so its outcome needs no oracle;
- the mutual recursion processBlock → requestNextBlockBySlot →
  processBlock (the in-memory-buffer short-circuit) is made total with a
  fuel parameter, decremented at each `processBlock` entry; fuel 0 returns
  the state unchanged, and every theorem quantifying over fuel holds for
  all fuel values;
- the `run` select loop becomes `step` over a `SyncInput`; the
  channel subscription for crystallized-state responses becomes the
  `crystallizedSubscribed` flag (a message on an unsubscribed channel is
  not delivered), and the loop's `return` on convergence becomes the
  absorbing `terminated` flag.
-/
import Mathlib

namespace InitialSync

/-- A beacon block as the sync engine sees it: a slot number and the
crystallized-state root it builds on (pb.BeaconBlock). -/
structure BeaconBlock where
  slot : Nat
  crystallizedStateRoot : Nat
deriving DecidableEq, Repr

/-- A crystallized state response as the sync engine sees it: its content
hash (the result of cState.Hash()) and its last finalized slot. -/
structure CrystallizedState where
  hash : Nat
  lastFinalizedSlot : Nat
deriving DecidableEq, Repr

/-- One call to an external collaborator, recorded in order of occurrence:
db.SaveBlock, db.SaveCrystallizedState, p2p.Broadcast of a
BeaconBlockRequestBySlotNumber, p2p.Broadcast of a
BatchedBeaconBlockRequest, p2p.Send of a CrystallizedStateRequest, and
syncService.ResumeSync. -/
inductive Effect where
  | saveBlock (b : BeaconBlock)
  | saveCrystallizedState (c : CrystallizedState)
  | blockRequest (slot : Nat)
  | batchedBlockRequest (startSlot endSlot : Nat)
  | stateRequest (hash : Nat)
  | resumeSync
deriving DecidableEq, Repr

/-- The mutable fields of the `InitialSync` struct that the sync logic
touches, plus the two pieces of loop context: whether the
crystallized-state subscription is still active and whether `run` has
returned at convergence. -/
structure SyncState where
  currentSlot : Nat
  highestObservedSlot : Nat
  initialCrystallizedStateRoot : Nat
  inMemoryBlocks : Nat → Option BeaconBlock
  crystallizedSubscribed : Bool
  terminated : Bool

/-- The state built by NewInitialSyncService, with the subscription
performed at the top of `run`: zero slots, zero state root, empty
in-memory block map. -/
def initialState : SyncState :=
  { currentSlot := 0
    highestObservedSlot := 0
    initialCrystallizedStateRoot := 0
    inMemoryBlocks := fun _ => none
    crystallizedSubscribed := true
    terminated := false }

/-- The opening lines of processBlock: raise highestObservedSlot to the
block's slot when the block's slot exceeds it. -/
def raiseHighest (s : SyncState) (slot : Nat) : SyncState :=
  if slot > s.highestObservedSlot then
    { s with highestObservedSlot := slot }
  else s

/-- The save-in-memory snippet of processBlock (it appears twice in the
source): insert the block at its slot key unless an entry already exists
there. -/
def bufferBlock (s : SyncState) (block : BeaconBlock) : SyncState :=
  if (s.inMemoryBlocks block.slot).isSome then s
  else
    { s with inMemoryBlocks :=
        fun k => if k = block.slot then some block else s.inMemoryBlocks k }

/-- validateAndSaveNextBlock: commits the block only when its slot is
exactly currentSlot + 1 and SaveBlock succeeds; on success advances
currentSlot and deletes the block's buffer entry. On SaveBlock failure it
returns before the cursor advancement. -/
def validateAndSaveNextBlock (db : Nat → Bool) (s : SyncState)
    (block : BeaconBlock) : SyncState × List Effect :=
  if s.currentSlot = 0 then
    (s, [])
  else if s.currentSlot + 1 = block.slot then
    if db block.slot then
      ( { s with
            currentSlot := block.slot
            inMemoryBlocks :=
              if (s.inMemoryBlocks block.slot).isSome then
                fun k => if k = block.slot then none else s.inMemoryBlocks k
              else s.inMemoryBlocks },
        [Effect.saveBlock block] )
    else
      (s, [Effect.saveBlock block])
  else
    (s, [])

mutual

/-- processBlock: validates each received block; raises
highestObservedSlot, discards stale blocks, handles the pre-anchor
(currentSlot == 0) cases, buffers non-next-slot blocks, and commits the
exact next-slot block then dispatches a request for the following slot. -/
def processBlock (db : Nat → Bool) :
    Nat → SyncState → BeaconBlock → SyncState × List Effect
  | 0, s, _ => (s, [])
  | fuel + 1, s, block =>
    let s := raiseHighest s block.slot
    if block.slot < s.currentSlot then
      (s, [])
    else if s.currentSlot = 0 then
      if s.initialCrystallizedStateRoot ≠ 0 then
        (s, [])
      else if block.slot ≠ 1 then
        -- saves block in memory if it isn't the initial block
        requestNextBlockBySlot db fuel (bufferBlock s block) 1
      else
        let r := setBlockForInitialSync db fuel s block
        -- requestCrystallizedStateFromPeer sends the request even when
        -- setBlockForInitialSync returned an error (which is only logged)
        (r.1, r.2 ++ [Effect.stateRequest block.crystallizedStateRoot])
    else if block.slot ≠ s.currentSlot + 1 then
      -- if it isn't the block in the next slot it saves it in memory
      (bufferBlock s block, [])
    else
      let r := validateAndSaveNextBlock db s block
      let r2 := requestNextBlockBySlot db fuel r.1 (r.1.currentSlot + 1)
      (r2.1, r.2 ++ r2.2)

/-- requestNextBlockBySlot: before broadcasting a
BeaconBlockRequestBySlotNumber, checks the in-memory buffer and feeds an
already-received block at that slot straight back into processBlock. -/
def requestNextBlockBySlot (db : Nat → Bool) :
    Nat → SyncState → Nat → SyncState × List Effect
  | fuel, s, slotnumber =>
    match s.inMemoryBlocks slotnumber with
    | some block => processBlock db fuel s block
    | none => (s, [Effect.blockRequest slotnumber])

/-- setBlockForInitialSync: persists the anchor block; on success records
its crystallized-state root, sets currentSlot to the block's slot and
dispatches a request for the next slot. On SaveBlock failure it returns
early: the root and currentSlot are left unset. -/
def setBlockForInitialSync (db : Nat → Bool) :
    Nat → SyncState → BeaconBlock → SyncState × List Effect
  | fuel, s, block =>
    if db block.slot then
      let s := { s with
                  initialCrystallizedStateRoot := block.crystallizedStateRoot
                  currentSlot := block.slot }
      let r := requestNextBlockBySlot db fuel s (s.currentSlot + 1)
      (r.1, Effect.saveBlock block :: r.2)
    else
      (s, [Effect.saveBlock block])

end

/-- processBatchedBlocks: routes each block of a batched response through
processBlock in sequence order. -/
def processBatchedBlocks (db : Nat → Bool) (fuel : Nat) :
    SyncState → List BeaconBlock → SyncState × List Effect
  | s, [] => (s, [])
  | s, block :: rest =>
    let r := processBlock db fuel s block
    let r2 := processBatchedBlocks db fuel r.1 rest
    (r2.1, r.2 ++ r2.2)

/-- The five input sources of the run select loop: the polling-timer tick,
a block announcement, a single block response, a batched block response,
and a crystallized-state response. -/
inductive SyncInput where
  | tick
  | blockAnnounce (slot : Nat)
  | blockResponse (b : BeaconBlock)
  | batchedBlockResponse (bs : List BeaconBlock)
  | crystallizedStateResponse (c : CrystallizedState)

/-- One iteration of the run select loop on one ready input. After the
loop has returned (terminated), nothing further happens. -/
def step (db : Nat → Bool) (fuel : Nat) (s : SyncState) :
    SyncInput → SyncState × List Effect
  | .tick =>
    if s.terminated then (s, [])
    else if s.currentSlot = 0 then (s, [])
    else if s.highestObservedSlot = s.currentSlot then
      ({ s with terminated := true }, [Effect.resumeSync])
    else
      -- requestBatchedBlocks(s.highestObservedSlot)
      (s, [Effect.batchedBlockRequest (s.currentSlot + 1)
            s.highestObservedSlot])
  | .blockAnnounce slot =>
    if s.terminated then (s, [])
    else
      let s := raiseHighest s slot
      (s, [Effect.batchedBlockRequest (s.currentSlot + 1)
            s.highestObservedSlot])
  | .blockResponse b =>
    if s.terminated then (s, []) else processBlock db fuel s b
  | .batchedBlockResponse bs =>
    if s.terminated then (s, []) else processBatchedBlocks db fuel s bs
  | .crystallizedStateResponse c =>
    if s.terminated then (s, [])
    else if ¬ s.crystallizedSubscribed then (s, [])
    else if s.initialCrystallizedStateRoot = 0 then (s, [])
    else if c.hash ≠ s.initialCrystallizedStateRoot then (s, [])
    else if s.currentSlot ≥ c.lastFinalizedSlot then
      -- saved, then found stale: the unsubscribe below is not reached
      (s, [Effect.saveCrystallizedState c])
    else
      let s := { s with currentSlot := c.lastFinalizedSlot }
      let r := requestNextBlockBySlot db fuel s (s.currentSlot + 1)
      ({ r.1 with crystallizedSubscribed := false },
        Effect.saveCrystallizedState c :: r.2)

/-- Folding step over a list of inputs, concatenating the emitted
effects: a whole run of the event loop on a given arrival order. -/
def runInputs (db : Nat → Bool) (fuel : Nat) :
    SyncState → List SyncInput → SyncState × List Effect
  | s, [] => (s, [])
  | s, i :: rest =>
    let r := step db fuel s i
    let r2 := runInputs db fuel r.1 rest
    (r2.1, r.2 ++ r2.2)

/-- One polling pass of the checkInMemoryBlocks goroutine: if not yet
converged and the buffer holds a block at currentSlot + 1 that is within
the observed range, feed it into processBlock. -/
def checkInMemoryBlocksStep (db : Nat → Bool) (fuel : Nat)
    (s : SyncState) : SyncState × List Effect :=
  if s.currentSlot = s.highestObservedSlot then (s, [])
  else
    match s.inMemoryBlocks (s.currentSlot + 1) with
    | some block =>
      if s.currentSlot + 1 ≤ s.highestObservedSlot then
        processBlock db fuel s block
      else (s, [])
    | none => (s, [])

/-- The all-successes persistence oracle. -/
def dbOk : Nat → Bool := fun _ => true

/-- A persistence oracle that fails exactly on the block of slot 5. -/
def dbFail5 : Nat → Bool := fun n => n != 5

/-- A post-commit state at cursor 2 with an empty buffer, reachable e.g.
by anchoring at slot 1 and adopting a crystallized state finalized at
slot 2. -/
def postCommit2State : SyncState :=
  { currentSlot := 2
    highestObservedSlot := 2
    initialCrystallizedStateRoot := 7
    inMemoryBlocks := fun _ => none
    crystallizedSubscribed := false
    terminated := false }

/-- The buffer-drain scenario of the spec: cursor at 4, blocks buffered
at exactly slots 5, 6 and 7, all of them observed. -/
def drainState : SyncState :=
  { currentSlot := 4
    highestObservedSlot := 7
    initialCrystallizedStateRoot := 3
    inMemoryBlocks := fun k =>
      if k = 5 then some ⟨5, 3⟩ else if k = 6 then some ⟨6, 3⟩
      else if k = 7 then some ⟨7, 3⟩ else none
    crystallizedSubscribed := false
    terminated := false }

/-- A post-commit state at cursor 4 with an empty buffer, used to deliver
the next-slot block while its persist fails. -/
def postCommit4State : SyncState :=
  { currentSlot := 4
    highestObservedSlot := 7
    initialCrystallizedStateRoot := 3
    inMemoryBlocks := fun _ => none
    crystallizedSubscribed := false
    terminated := false }

/-- The state right after accepting the slot-1 anchor block (root 5),
still subscribed to crystallized-state responses. -/
def anchoredState : SyncState :=
  { currentSlot := 1
    highestObservedSlot := 1
    initialCrystallizedStateRoot := 5
    inMemoryBlocks := fun _ => none
    crystallizedSubscribed := true
    terminated := false }

/-- A converged state: the cursor has caught up with the highest observed
slot. -/
def convergedState : SyncState :=
  { currentSlot := 3
    highestObservedSlot := 3
    initialCrystallizedStateRoot := 5
    inMemoryBlocks := fun _ => none
    crystallizedSubscribed := false
    terminated := false }

/-! ### Basic facts about the two shared snippets -/

lemma raiseHighest_currentSlot (s : SyncState) (slot : Nat) :
    (raiseHighest s slot).currentSlot = s.currentSlot := by
  unfold raiseHighest; split <;> rfl

lemma raiseHighest_root (s : SyncState) (slot : Nat) :
    (raiseHighest s slot).initialCrystallizedStateRoot =
      s.initialCrystallizedStateRoot := by
  unfold raiseHighest; split <;> rfl

lemma raiseHighest_inMemoryBlocks (s : SyncState) (slot : Nat) :
    (raiseHighest s slot).inMemoryBlocks = s.inMemoryBlocks := by
  unfold raiseHighest; split <;> rfl

lemma raiseHighest_subscribed (s : SyncState) (slot : Nat) :
    (raiseHighest s slot).crystallizedSubscribed =
      s.crystallizedSubscribed := by
  unfold raiseHighest; split <;> rfl

lemma raiseHighest_terminated (s : SyncState) (slot : Nat) :
    (raiseHighest s slot).terminated = s.terminated := by
  unfold raiseHighest; split <;> rfl

lemma raiseHighest_highest (s : SyncState) (slot : Nat) :
    (raiseHighest s slot).highestObservedSlot =
      max s.highestObservedSlot slot := by
  unfold raiseHighest
  split
  · dsimp only; omega
  · omega

lemma bufferBlock_currentSlot (s : SyncState) (b : BeaconBlock) :
    (bufferBlock s b).currentSlot = s.currentSlot := by
  unfold bufferBlock; split <;> rfl

lemma bufferBlock_highest (s : SyncState) (b : BeaconBlock) :
    (bufferBlock s b).highestObservedSlot = s.highestObservedSlot := by
  unfold bufferBlock; split <;> rfl

lemma bufferBlock_root (s : SyncState) (b : BeaconBlock) :
    (bufferBlock s b).initialCrystallizedStateRoot =
      s.initialCrystallizedStateRoot := by
  unfold bufferBlock; split <;> rfl

lemma bufferBlock_subscribed (s : SyncState) (b : BeaconBlock) :
    (bufferBlock s b).crystallizedSubscribed = s.crystallizedSubscribed := by
  unfold bufferBlock; split <;> rfl

lemma bufferBlock_terminated (s : SyncState) (b : BeaconBlock) :
    (bufferBlock s b).terminated = s.terminated := by
  unfold bufferBlock; split <;> rfl

lemma bufferBlock_lookup_self (s : SyncState) (b : BeaconBlock) :
    (bufferBlock s b).inMemoryBlocks b.slot =
      if (s.inMemoryBlocks b.slot).isSome then s.inMemoryBlocks b.slot
      else some b := by
  unfold bufferBlock; split <;> simp_all

lemma bufferBlock_lookup_other (s : SyncState) (b : BeaconBlock)
    (k : Nat) (h : k ≠ b.slot) :
    (bufferBlock s b).inMemoryBlocks k = s.inMemoryBlocks k := by
  unfold bufferBlock; split <;> simp_all

/-! ### currentSlot never decreases -/

lemma validateAndSaveNextBlock_mono (db : Nat → Bool) (s : SyncState)
    (b : BeaconBlock) :
    s.currentSlot ≤ (validateAndSaveNextBlock db s b).1.currentSlot := by
  unfold validateAndSaveNextBlock
  split
  · exact le_refl _
  · split
    · split
      · simp; omega
      · exact le_refl _
    · exact le_refl _

lemma requestNextBlockBySlot_mono_of (db : Nat → Bool) (fuel : Nat)
    (h : ∀ s b, s.currentSlot ≤ (processBlock db fuel s b).1.currentSlot)
    (s : SyncState) (n : Nat) :
    s.currentSlot ≤ (requestNextBlockBySlot db fuel s n).1.currentSlot := by
  unfold requestNextBlockBySlot
  cases hm : s.inMemoryBlocks n with
  | none => simp
  | some b => simpa using h s b

lemma setBlockForInitialSync_mono_of (db : Nat → Bool) (fuel : Nat)
    (h : ∀ s b, s.currentSlot ≤ (processBlock db fuel s b).1.currentSlot)
    (s : SyncState) (b : BeaconBlock) (hb : s.currentSlot ≤ b.slot) :
    s.currentSlot ≤ (setBlockForInitialSync db fuel s b).1.currentSlot := by
  unfold setBlockForInitialSync
  split
  · have := requestNextBlockBySlot_mono_of db fuel h
      { s with
          initialCrystallizedStateRoot := b.crystallizedStateRoot
          currentSlot := b.slot }
      (b.slot + 1)
    dsimp only at this ⊢
    exact le_trans hb this
  · exact le_refl _

lemma processBlock_mono (db : Nat → Bool) :
    ∀ fuel s b, s.currentSlot ≤ (processBlock db fuel s b).1.currentSlot := by
  intro fuel
  induction fuel with
  | zero => intro s b; simp [processBlock]
  | succ fuel ih =>
    intro s b
    rw [processBlock]
    dsimp only
    have hcur : (raiseHighest s b.slot).currentSlot = s.currentSlot :=
      raiseHighest_currentSlot s b.slot
    split
    · dsimp only; omega
    · split
      · split
        · dsimp only; omega
        · split
          · have := requestNextBlockBySlot_mono_of db fuel ih
              (bufferBlock (raiseHighest s b.slot) b) 1
            rw [bufferBlock_currentSlot] at this
            omega
          · have := setBlockForInitialSync_mono_of db fuel ih
              (raiseHighest s b.slot) b (by omega)
            dsimp only
            omega
      · split
        · rw [bufferBlock_currentSlot]; omega
        · have h1 := validateAndSaveNextBlock_mono db (raiseHighest s b.slot) b
          have h2 := requestNextBlockBySlot_mono_of db fuel ih
            (validateAndSaveNextBlock db (raiseHighest s b.slot) b).1
            ((validateAndSaveNextBlock db (raiseHighest s b.slot) b).1.currentSlot + 1)
          dsimp only
          omega

lemma requestNextBlockBySlot_mono (db : Nat → Bool) (fuel : Nat)
    (s : SyncState) (n : Nat) :
    s.currentSlot ≤ (requestNextBlockBySlot db fuel s n).1.currentSlot :=
  requestNextBlockBySlot_mono_of db fuel (processBlock_mono db fuel) s n

lemma processBatchedBlocks_mono (db : Nat → Bool) (fuel : Nat) :
    ∀ bs s, s.currentSlot ≤ (processBatchedBlocks db fuel s bs).1.currentSlot := by
  intro bs
  induction bs with
  | nil => intro s; simp [processBatchedBlocks]
  | cons b rest ih =>
    intro s
    have h1 := processBlock_mono db fuel s b
    have h2 := ih (processBlock db fuel s b).1
    simp only [processBatchedBlocks]
    omega

lemma step_mono (db : Nat → Bool) (fuel : Nat) (s : SyncState)
    (i : SyncInput) : s.currentSlot ≤ (step db fuel s i).1.currentSlot := by
  cases i with
  | tick =>
    simp only [step]
    split
    · exact le_refl _
    · split
      · exact le_refl _
      · split
        · exact le_refl _
        · exact le_refl _
  | blockAnnounce slot =>
    simp only [step]
    split
    · exact le_refl _
    · dsimp only
      rw [raiseHighest_currentSlot]
  | blockResponse b =>
    simp only [step]
    split
    · exact le_refl _
    · exact processBlock_mono db fuel s b
  | batchedBlockResponse bs =>
    simp only [step]
    split
    · exact le_refl _
    · exact processBatchedBlocks_mono db fuel bs s
  | crystallizedStateResponse c =>
    simp only [step]
    split
    · exact le_refl _
    · split
      · exact le_refl _
      · split
        · exact le_refl _
        · split
          · exact le_refl _
          · split
            · exact le_refl _
            · have := requestNextBlockBySlot_mono db fuel
                { s with currentSlot := c.lastFinalizedSlot }
                (c.lastFinalizedSlot + 1)
              dsimp only at this ⊢
              omega

/-! ### Generic field preservation through block processing

The four block-processing functions only ever rebuild the state by
changing `currentSlot`, `highestObservedSlot`,
`initialCrystallizedStateRoot` or `inMemoryBlocks`; any observation `f`
that is blind to those four fields passes through unchanged. -/

section Preserves

variable {α : Type} (f : SyncState → α)
    (hf : ∀ (s : SyncState) c o h m,
      f { s with
            currentSlot := c
            highestObservedSlot := o
            initialCrystallizedStateRoot := h
            inMemoryBlocks := m } = f s)

include hf

lemma raiseHighest_preserves (s : SyncState) (n : Nat) :
    f (raiseHighest s n) = f s := by
  unfold raiseHighest
  split
  · exact hf s _ _ _ _
  · rfl

lemma bufferBlock_preserves (s : SyncState) (b : BeaconBlock) :
    f (bufferBlock s b) = f s := by
  unfold bufferBlock
  split
  · rfl
  · exact hf s _ _ _ _

lemma validateAndSaveNextBlock_preserves (db : Nat → Bool) (s : SyncState)
    (b : BeaconBlock) :
    f (validateAndSaveNextBlock db s b).1 = f s := by
  unfold validateAndSaveNextBlock
  split
  · rfl
  · split
    · split
      · exact hf s _ _ _ _
      · rfl
    · rfl

lemma processBlock_preserves (db : Nat → Bool) :
    ∀ fuel s b, f (processBlock db fuel s b).1 = f s := by
  intro fuel
  induction fuel with
  | zero => intro s b; simp [processBlock]
  | succ fuel ih =>
    intro s b
    have hreq : ∀ s n, f (requestNextBlockBySlot db fuel s n).1 = f s := by
      intro s n
      unfold requestNextBlockBySlot
      cases hm : s.inMemoryBlocks n with
      | none => rfl
      | some b' => simpa using ih s b'
    have hr := raiseHighest_preserves f hf s b.slot
    rw [processBlock]
    dsimp only
    split
    · exact hr
    · split
      · split
        · exact hr
        · split
          · rw [hreq, bufferBlock_preserves f hf, hr]
          · unfold setBlockForInitialSync
            split
            · dsimp only
              rw [hreq, hf, hr]
            · exact hr
      · split
        · rw [bufferBlock_preserves f hf, hr]
        · dsimp only
          rw [hreq, validateAndSaveNextBlock_preserves f hf, hr]

lemma processBatchedBlocks_preserves (db : Nat → Bool) (fuel : Nat) :
    ∀ bs s, f (processBatchedBlocks db fuel s bs).1 = f s := by
  intro bs
  induction bs with
  | nil => intro s; rfl
  | cons b rest ih =>
    intro s
    simp only [processBatchedBlocks]
    rw [ih, processBlock_preserves f hf]

lemma requestNextBlockBySlot_preserves (db : Nat → Bool) (fuel : Nat)
    (s : SyncState) (n : Nat) :
    f (requestNextBlockBySlot db fuel s n).1 = f s := by
  unfold requestNextBlockBySlot
  cases hm : s.inMemoryBlocks n with
  | none => rfl
  | some b => simpa using processBlock_preserves f hf db fuel s b

end Preserves

lemma processBlock_subscribed (db : Nat → Bool) (fuel : Nat)
    (s : SyncState) (b : BeaconBlock) :
    (processBlock db fuel s b).1.crystallizedSubscribed =
      s.crystallizedSubscribed :=
  processBlock_preserves (f := SyncState.crystallizedSubscribed)
    (fun _ _ _ _ _ => rfl) db fuel s b

lemma processBlock_terminated (db : Nat → Bool) (fuel : Nat)
    (s : SyncState) (b : BeaconBlock) :
    (processBlock db fuel s b).1.terminated = s.terminated :=
  processBlock_preserves (f := SyncState.terminated)
    (fun _ _ _ _ _ => rfl) db fuel s b

lemma processBatchedBlocks_terminated (db : Nat → Bool) (fuel : Nat)
    (bs : List BeaconBlock) (s : SyncState) :
    (processBatchedBlocks db fuel s bs).1.terminated = s.terminated :=
  processBatchedBlocks_preserves (f := SyncState.terminated)
    (fun _ _ _ _ _ => rfl) db fuel bs s

lemma processBatchedBlocks_subscribed (db : Nat → Bool) (fuel : Nat)
    (bs : List BeaconBlock) (s : SyncState) :
    (processBatchedBlocks db fuel s bs).1.crystallizedSubscribed =
      s.crystallizedSubscribed :=
  processBatchedBlocks_preserves (f := SyncState.crystallizedSubscribed)
    (fun _ _ _ _ _ => rfl) db fuel bs s

lemma requestNextBlockBySlot_terminated (db : Nat → Bool) (fuel : Nat)
    (s : SyncState) (n : Nat) :
    (requestNextBlockBySlot db fuel s n).1.terminated = s.terminated :=
  requestNextBlockBySlot_preserves (f := SyncState.terminated)
    (fun _ _ _ _ _ => rfl) db fuel s n

lemma requestNextBlockBySlot_subscribed (db : Nat → Bool) (fuel : Nat)
    (s : SyncState) (n : Nat) :
    (requestNextBlockBySlot db fuel s n).1.crystallizedSubscribed =
      s.crystallizedSubscribed :=
  requestNextBlockBySlot_preserves (f := SyncState.crystallizedSubscribed)
    (fun _ _ _ _ _ => rfl) db fuel s n

/-! ### highestObservedSlot never decreases, and block processing
preserves currentSlot ≤ highestObservedSlot -/

lemma validateAndSaveNextBlock_highest (db : Nat → Bool) (s : SyncState)
    (b : BeaconBlock) :
    (validateAndSaveNextBlock db s b).1.highestObservedSlot =
      s.highestObservedSlot := by
  unfold validateAndSaveNextBlock
  split
  · rfl
  · split
    · split
      · rfl
      · rfl
    · rfl

lemma processBlock_hos_mono (db : Nat → Bool) :
    ∀ fuel s b, s.highestObservedSlot ≤
      (processBlock db fuel s b).1.highestObservedSlot := by
  intro fuel
  induction fuel with
  | zero => intro s b; simp [processBlock]
  | succ fuel ih =>
    intro s b
    have hreq : ∀ (s : SyncState) n, s.highestObservedSlot ≤
        (requestNextBlockBySlot db fuel s n).1.highestObservedSlot := by
      intro s n
      unfold requestNextBlockBySlot
      cases hm : s.inMemoryBlocks n with
      | none => simp
      | some b' => simpa using ih s b'
    have hr := raiseHighest_highest s b.slot
    rw [processBlock]
    dsimp only
    split
    · dsimp only; omega
    · split
      · split
        · dsimp only; omega
        · split
          · have := hreq (bufferBlock (raiseHighest s b.slot) b) 1
            rw [bufferBlock_highest] at this
            omega
          · unfold setBlockForInitialSync
            split
            · have := hreq
                { raiseHighest s b.slot with
                    initialCrystallizedStateRoot := b.crystallizedStateRoot
                    currentSlot := b.slot }
                (b.slot + 1)
              dsimp only at this ⊢
              omega
            · dsimp only; omega
      · split
        · rw [bufferBlock_highest]; omega
        · have h1 := validateAndSaveNextBlock_highest db (raiseHighest s b.slot) b
          have h2 := hreq (validateAndSaveNextBlock db (raiseHighest s b.slot) b).1
            ((validateAndSaveNextBlock db (raiseHighest s b.slot) b).1.currentSlot + 1)
          dsimp only
          omega

/-- After processing a block with any positive fuel, highestObservedSlot
is at least the block's slot: a delivery above the current observation is
taken as a new, higher observation. -/
lemma processBlock_hos_ge (db : Nat → Bool) (fuel : Nat) (s : SyncState)
    (b : BeaconBlock) :
    b.slot ≤ (processBlock db (fuel + 1) s b).1.highestObservedSlot := by
  have hr := raiseHighest_highest s b.slot
  have hreq : ∀ (s : SyncState) n, s.highestObservedSlot ≤
      (requestNextBlockBySlot db fuel s n).1.highestObservedSlot := by
    intro s n
    unfold requestNextBlockBySlot
    cases hm : s.inMemoryBlocks n with
    | none => simp
    | some b' => simpa using processBlock_hos_mono db fuel s b'
  rw [processBlock]
  dsimp only
  split
  · dsimp only; omega
  · split
    · split
      · dsimp only; omega
      · split
        · have := hreq (bufferBlock (raiseHighest s b.slot) b) 1
          rw [bufferBlock_highest] at this
          omega
        · unfold setBlockForInitialSync
          split
          · have := hreq
              { raiseHighest s b.slot with
                  initialCrystallizedStateRoot := b.crystallizedStateRoot
                  currentSlot := b.slot }
              (b.slot + 1)
            dsimp only at this ⊢
            omega
          · dsimp only; omega
    · split
      · rw [bufferBlock_highest]; omega
      · have h1 := validateAndSaveNextBlock_highest db (raiseHighest s b.slot) b
        have h2 := hreq (validateAndSaveNextBlock db (raiseHighest s b.slot) b).1
          ((validateAndSaveNextBlock db (raiseHighest s b.slot) b).1.currentSlot + 1)
        dsimp only
        omega

/-- The cursor-within-observation invariant. -/
def slotInv (s : SyncState) : Prop :=
  s.currentSlot ≤ s.highestObservedSlot

lemma validateAndSaveNextBlock_inv (db : Nat → Bool) (s : SyncState)
    (b : BeaconBlock) (hb : b.slot ≤ s.highestObservedSlot)
    (h : slotInv s) : slotInv (validateAndSaveNextBlock db s b).1 := by
  unfold slotInv at *
  unfold validateAndSaveNextBlock
  split
  · exact h
  · split
    · split
      · dsimp only; omega
      · exact h
    · exact h

lemma requestNextBlockBySlot_inv_of (db : Nat → Bool) (fuel : Nat)
    (ih : ∀ s b, slotInv s → slotInv (processBlock db fuel s b).1)
    (s : SyncState) (n : Nat) (h : slotInv s) :
    slotInv (requestNextBlockBySlot db fuel s n).1 := by
  unfold requestNextBlockBySlot
  cases hm : s.inMemoryBlocks n with
  | none => simpa using h
  | some b' => simpa using ih s b' h

lemma processBlock_inv (db : Nat → Bool) :
    ∀ fuel s b, slotInv s → slotInv (processBlock db fuel s b).1 := by
  intro fuel
  induction fuel with
  | zero => intro s b h; simpa [processBlock] using h
  | succ fuel ih =>
    intro s b h
    have hr := raiseHighest_highest s b.slot
    have hrc := raiseHighest_currentSlot s b.slot
    have h1 : slotInv (raiseHighest s b.slot) := by
      unfold slotInv at *; omega
    have hb1 : b.slot ≤ (raiseHighest s b.slot).highestObservedSlot := by
      omega
    rw [processBlock]
    dsimp only
    split
    · exact h1
    · split
      · split
        · exact h1
        · split
          · refine requestNextBlockBySlot_inv_of db fuel ih _ 1 ?_
            unfold slotInv at *
            rw [bufferBlock_currentSlot, bufferBlock_highest]
            exact h1
          · unfold setBlockForInitialSync
            split
            · dsimp only
              refine requestNextBlockBySlot_inv_of db fuel ih _ _ ?_
              unfold slotInv
              dsimp only
              omega
            · exact h1
      · split
        · unfold slotInv at *
          rw [bufferBlock_currentSlot, bufferBlock_highest]
          exact h1
        · dsimp only
          refine requestNextBlockBySlot_inv_of db fuel ih _ _ ?_
          exact validateAndSaveNextBlock_inv db _ b hb1 h1

lemma processBatchedBlocks_inv (db : Nat → Bool) (fuel : Nat) :
    ∀ bs s, slotInv s → slotInv (processBatchedBlocks db fuel s bs).1 := by
  intro bs
  induction bs with
  | nil => intro s h; simpa [processBatchedBlocks] using h
  | cons b rest ih =>
    intro s h
    simp only [processBatchedBlocks]
    exact ih _ (processBlock_inv db fuel s b h)

/-! ### The block-processing functions emit only block-shaped effects -/

/-- The effects processBlock can emit: SaveBlock calls, block requests by
slot, and crystallized-state requests — never ResumeSync and never
SaveCrystallizedState. -/
def blockEffect : Effect → Prop
  | .saveBlock _ => True
  | .blockRequest _ => True
  | .stateRequest _ => True
  | _ => False

lemma validateAndSaveNextBlock_effects (db : Nat → Bool) (s : SyncState)
    (b : BeaconBlock) :
    ∀ e ∈ (validateAndSaveNextBlock db s b).2, blockEffect e := by
  unfold validateAndSaveNextBlock
  split
  · simp
  · split
    · split
      · simp [blockEffect]
      · simp [blockEffect]
    · simp

lemma processBlock_effects (db : Nat → Bool) :
    ∀ fuel s b, ∀ e ∈ (processBlock db fuel s b).2, blockEffect e := by
  intro fuel
  induction fuel with
  | zero => intro s b; simp [processBlock]
  | succ fuel ih =>
    intro s b
    have hreq : ∀ (s : SyncState) n,
        ∀ e ∈ (requestNextBlockBySlot db fuel s n).2, blockEffect e := by
      intro s n
      unfold requestNextBlockBySlot
      cases hm : s.inMemoryBlocks n with
      | none => simp [blockEffect]
      | some b' => simpa using ih s b'
    rw [processBlock]
    dsimp only
    split
    · simp
    · split
      · split
        · simp
        · split
          · exact hreq _ 1
          · unfold setBlockForInitialSync
            split
            · dsimp only
              intro e he
              rcases List.mem_append.mp he with h | h
              · rcases List.mem_cons.mp h with rfl | h
                · trivial
                · exact hreq _ _ e h
              · rw [List.mem_singleton] at h
                subst h
                trivial
            · dsimp only
              intro e he
              rcases List.mem_append.mp he with h | h
              · rw [List.mem_singleton] at h
                subst h
                trivial
              · rw [List.mem_singleton] at h
                subst h
                trivial
      · split
        · simp
        · dsimp only
          intro e he
          rcases List.mem_append.mp he with h | h
          · exact validateAndSaveNextBlock_effects db _ b e h
          · exact hreq _ _ e h

lemma processBatchedBlocks_effects (db : Nat → Bool) (fuel : Nat) :
    ∀ bs s, ∀ e ∈ (processBatchedBlocks db fuel s bs).2, blockEffect e := by
  intro bs
  induction bs with
  | nil => intro s; simp [processBatchedBlocks]
  | cons b rest ih =>
    intro s e he
    simp only [processBatchedBlocks] at he
    rcases List.mem_append.mp he with h | h
    · exact processBlock_effects db fuel s b e h
    · exact ih _ e h

lemma requestNextBlockBySlot_effects (db : Nat → Bool) (fuel : Nat)
    (s : SyncState) (n : Nat) :
    ∀ e ∈ (requestNextBlockBySlot db fuel s n).2, blockEffect e := by
  unfold requestNextBlockBySlot
  cases hm : s.inMemoryBlocks n with
  | none => simp [blockEffect]
  | some b => simpa using processBlock_effects db fuel s b

/-! ### The anchor state root is never rewritten once the cursor is
positive -/

lemma validateAndSaveNextBlock_root (db : Nat → Bool) (s : SyncState)
    (b : BeaconBlock) :
    (validateAndSaveNextBlock db s b).1.initialCrystallizedStateRoot =
      s.initialCrystallizedStateRoot := by
  unfold validateAndSaveNextBlock
  split
  · rfl
  · split
    · split
      · rfl
      · rfl
    · rfl

lemma processBlock_root_of_pos (db : Nat → Bool) :
    ∀ fuel s b, s.currentSlot ≠ 0 →
      (processBlock db fuel s b).1.initialCrystallizedStateRoot =
        s.initialCrystallizedStateRoot := by
  intro fuel
  induction fuel with
  | zero => intro s b _; simp [processBlock]
  | succ fuel ih =>
    intro s b hs
    have hreq : ∀ (s : SyncState) n, s.currentSlot ≠ 0 →
        (requestNextBlockBySlot db fuel s n).1.initialCrystallizedStateRoot =
          s.initialCrystallizedStateRoot := by
      intro s n hn
      unfold requestNextBlockBySlot
      cases hm : s.inMemoryBlocks n with
      | none => simp
      | some b' => simpa using ih s b' hn
    have hc := raiseHighest_currentSlot s b.slot
    have hroot := raiseHighest_root s b.slot
    rw [processBlock]
    dsimp only
    split
    · exact hroot
    · split
      · omega
      · split
        · rw [bufferBlock_root, hroot]
        · dsimp only
          have h1 : (validateAndSaveNextBlock db (raiseHighest s b.slot) b).1.currentSlot ≠ 0 := by
            have := validateAndSaveNextBlock_mono db (raiseHighest s b.slot) b
            omega
          rw [hreq _ _ h1, validateAndSaveNextBlock_root, hroot]

/-! ### Pre-anchor behaviour: the engine before any anchor block -/

/-- The bootstrap condition: no anchor committed, no anchor root, and no
stray buffer entry at the anchor slot (the engine never buffers a slot-1
block, so this holds in every reachable pre-anchor state, the initial one
included). -/
def preAnchor (s : SyncState) : Prop :=
  s.currentSlot = 0 ∧ s.initialCrystallizedStateRoot = 0 ∧
    s.inMemoryBlocks 1 = none

/-- A pre-anchor delivery of a non-anchor block only buffers it and
broadcasts a request for slot 1. -/
lemma processBlock_preAnchor_eq (db : Nat → Bool) (fuel : Nat)
    (s : SyncState) (b : BeaconBlock) (h : preAnchor s) (hb : b.slot ≠ 1) :
    processBlock db (fuel + 1) s b =
      (bufferBlock (raiseHighest s b.slot) b, [Effect.blockRequest 1]) := by
  obtain ⟨h0, hr0, hb1⟩ := h
  have hc : (raiseHighest s b.slot).currentSlot = 0 := by
    rw [raiseHighest_currentSlot]; exact h0
  have hroot : (raiseHighest s b.slot).initialCrystallizedStateRoot = 0 := by
    rw [raiseHighest_root]; exact hr0
  rw [processBlock]
  dsimp only
  rw [if_neg (by omega), if_pos hc, if_neg (by simp [hroot]), if_pos hb]
  unfold requestNextBlockBySlot
  rw [bufferBlock_lookup_other _ _ _ (Ne.symm hb), raiseHighest_inMemoryBlocks,
    hb1]

lemma processBlock_preAnchor_preserve (db : Nat → Bool) (fuel : Nat)
    (s : SyncState) (b : BeaconBlock) (h : preAnchor s) (hb : b.slot ≠ 1) :
    preAnchor (processBlock db fuel s b).1 ∧
      ∀ b', Effect.saveBlock b' ∉ (processBlock db fuel s b).2 := by
  cases fuel with
  | zero => simpa [processBlock] using h
  | succ fuel =>
    rw [processBlock_preAnchor_eq db fuel s b h hb]
    refine ⟨⟨?_, ?_, ?_⟩, by simp⟩
    · rw [bufferBlock_currentSlot, raiseHighest_currentSlot]; exact h.1
    · rw [bufferBlock_root, raiseHighest_root]; exact h.2.1
    · rw [bufferBlock_lookup_other _ _ _ (Ne.symm hb),
        raiseHighest_inMemoryBlocks]
      exact h.2.2

lemma processBatchedBlocks_preAnchor (db : Nat → Bool) (fuel : Nat) :
    ∀ bs s, preAnchor s → (∀ b ∈ bs, b.slot ≠ 1) →
      preAnchor (processBatchedBlocks db fuel s bs).1 ∧
        ∀ b', Effect.saveBlock b' ∉ (processBatchedBlocks db fuel s bs).2 := by
  intro bs
  induction bs with
  | nil => intro s h _; exact ⟨h, by simp [processBatchedBlocks]⟩
  | cons b rest ih =>
    intro s h hb
    have h1 := processBlock_preAnchor_preserve db fuel s b h
      (hb b (by simp))
    have h2 := ih (processBlock db fuel s b).1 h1.1
      (fun b' hb' => hb b' (by simp [hb']))
    refine ⟨h2.1, ?_⟩
    intro b'
    simp only [processBatchedBlocks, List.mem_append]
    push_neg
    exact ⟨h1.2 b', h2.2 b'⟩

/-- Inputs that contain no slot-1 block delivery. -/
def noSlotOneBlock : SyncInput → Prop
  | .blockResponse b => b.slot ≠ 1
  | .batchedBlockResponse bs => ∀ b ∈ bs, b.slot ≠ 1
  | _ => True

lemma step_preAnchor (db : Nat → Bool) (fuel : Nat) (s : SyncState)
    (i : SyncInput) (h : preAnchor s) (hi : noSlotOneBlock i) :
    preAnchor (step db fuel s i).1 ∧
      ∀ b', Effect.saveBlock b' ∉ (step db fuel s i).2 := by
  cases i with
  | tick =>
    simp only [step]
    split
    · exact ⟨h, by simp⟩
    · rw [if_pos h.1]
      exact ⟨h, by simp⟩
  | blockAnnounce slot =>
    simp only [step]
    split
    · exact ⟨h, by simp⟩
    · dsimp only
      refine ⟨⟨?_, ?_, ?_⟩, by simp⟩
      · rw [raiseHighest_currentSlot]; exact h.1
      · rw [raiseHighest_root]; exact h.2.1
      · rw [raiseHighest_inMemoryBlocks]; exact h.2.2
  | blockResponse b =>
    simp only [step]
    split
    · exact ⟨h, by simp⟩
    · exact processBlock_preAnchor_preserve db fuel s b h hi
  | batchedBlockResponse bs =>
    simp only [step]
    split
    · exact ⟨h, by simp⟩
    · exact processBatchedBlocks_preAnchor db fuel bs s h hi
  | crystallizedStateResponse c =>
    simp only [step]
    split
    · exact ⟨h, by simp⟩
    · split
      · exact ⟨h, by simp⟩
      · rw [if_pos h.2.1]
        exact ⟨h, by simp⟩

lemma runInputs_preAnchor (db : Nat → Bool) (fuel : Nat) :
    ∀ inputs s, preAnchor s → (∀ i ∈ inputs, noSlotOneBlock i) →
      preAnchor (runInputs db fuel s inputs).1 ∧
        ∀ b', Effect.saveBlock b' ∉ (runInputs db fuel s inputs).2 := by
  intro inputs
  induction inputs with
  | nil => intro s h _; exact ⟨h, by simp [runInputs]⟩
  | cons i rest ih =>
    intro s h hi
    have h1 := step_preAnchor db fuel s i h (hi i (by simp))
    have h2 := ih (step db fuel s i).1 h1.1
      (fun i' hi' => hi i' (by simp [hi']))
    refine ⟨h2.1, ?_⟩
    intro b'
    simp only [runInputs, List.mem_append]
    push_neg
    exact ⟨h1.2 b', h2.2 b'⟩

/-! ### Anchor acceptance -/

lemma requestNextBlockBySlot_root_of_pos (db : Nat → Bool) (fuel : Nat)
    (s : SyncState) (n : Nat) (h : s.currentSlot ≠ 0) :
    (requestNextBlockBySlot db fuel s n).1.initialCrystallizedStateRoot =
      s.initialCrystallizedStateRoot := by
  unfold requestNextBlockBySlot
  cases hm : s.inMemoryBlocks n with
  | none => simp
  | some b => simpa using processBlock_root_of_pos db fuel s b h

/-- Accepting a slot-1 block pre-anchor, with the persist succeeding:
the anchor root is set from the block, the cursor becomes positive, and
the block is persisted. -/
lemma processBlock_anchor_accept (db : Nat → Bool) (fuel : Nat)
    (s : SyncState) (b : BeaconBlock) (h0 : s.currentSlot = 0)
    (hr : s.initialCrystallizedStateRoot = 0) (hb : b.slot = 1)
    (hdb : db 1 = true) :
    (processBlock db (fuel + 1) s b).1.initialCrystallizedStateRoot =
        b.crystallizedStateRoot ∧
      1 ≤ (processBlock db (fuel + 1) s b).1.currentSlot ∧
      Effect.saveBlock b ∈ (processBlock db (fuel + 1) s b).2 := by
  have hc : (raiseHighest s b.slot).currentSlot = 0 := by
    rw [raiseHighest_currentSlot]; exact h0
  have hroot : (raiseHighest s b.slot).initialCrystallizedStateRoot = 0 := by
    rw [raiseHighest_root]; exact hr
  rw [processBlock]
  dsimp only
  rw [if_neg (by omega), if_pos hc, if_neg (by simp [hroot]),
    if_neg (by simp [hb])]
  unfold setBlockForInitialSync
  rw [if_pos (by rw [hb]; exact hdb)]
  dsimp only
  set s2 : SyncState :=
    { raiseHighest s b.slot with
        initialCrystallizedStateRoot := b.crystallizedStateRoot
        currentSlot := b.slot } with hs2
  have h2c : s2.currentSlot = b.slot := rfl
  have h2r : s2.initialCrystallizedStateRoot = b.crystallizedStateRoot := rfl
  refine ⟨?_, ?_, ?_⟩
  · rw [requestNextBlockBySlot_root_of_pos db fuel s2 _ (by omega), h2r]
  · have hmono := requestNextBlockBySlot_mono db fuel s2 (b.slot + 1)
    omega
  · simp

/-! ### The crystallized-state response cases of the run loop -/

lemma step_crys_unsub (db : Nat → Bool) (fuel : Nat) (s : SyncState)
    (c : CrystallizedState) (h : s.crystallizedSubscribed = false) :
    step db fuel s (SyncInput.crystallizedStateResponse c) = (s, []) := by
  simp only [step]
  split
  · rfl
  · rw [if_pos (by simp [h])]

lemma step_crys_mismatch (db : Nat → Bool) (fuel : Nat) (s : SyncState)
    (c : CrystallizedState) (ht : s.terminated = false)
    (hroot : s.initialCrystallizedStateRoot ≠ 0)
    (hm : c.hash ≠ s.initialCrystallizedStateRoot) :
    step db fuel s (SyncInput.crystallizedStateResponse c) = (s, []) := by
  by_cases hsub : s.crystallizedSubscribed = true
  · simp only [step]
    rw [if_neg (by simp [ht]), if_neg (by simp [hsub]), if_neg hroot,
      if_pos (by simpa using hm)]
  · exact step_crys_unsub db fuel s c (by simpa using hsub)

lemma step_crys_stale (db : Nat → Bool) (fuel : Nat) (s : SyncState)
    (c : CrystallizedState) (ht : s.terminated = false)
    (hsub : s.crystallizedSubscribed = true)
    (hroot : s.initialCrystallizedStateRoot ≠ 0)
    (hh : c.hash = s.initialCrystallizedStateRoot)
    (hge : c.lastFinalizedSlot ≤ s.currentSlot) :
    step db fuel s (SyncInput.crystallizedStateResponse c) =
      (s, [Effect.saveCrystallizedState c]) := by
  simp only [step]
  rw [if_neg (by simp [ht]), if_neg (by simp [hsub]), if_neg hroot,
    if_neg (by simpa using hh), if_pos hge]

lemma step_crys_adopt (db : Nat → Bool) (fuel : Nat) (s : SyncState)
    (c : CrystallizedState) (ht : s.terminated = false)
    (hsub : s.crystallizedSubscribed = true)
    (hroot : s.initialCrystallizedStateRoot ≠ 0)
    (hh : c.hash = s.initialCrystallizedStateRoot)
    (hlt : s.currentSlot < c.lastFinalizedSlot)
    (hbuf : s.inMemoryBlocks (c.lastFinalizedSlot + 1) = none) :
    step db fuel s (SyncInput.crystallizedStateResponse c) =
      ({ s with
          currentSlot := c.lastFinalizedSlot
          crystallizedSubscribed := false },
        [Effect.saveCrystallizedState c,
         Effect.blockRequest (c.lastFinalizedSlot + 1)]) := by
  simp only [step]
  rw [if_neg (by simp [ht]), if_neg (by simp [hsub]), if_neg hroot,
    if_neg (by simpa using hh), if_neg (by omega)]
  unfold requestNextBlockBySlot
  rw [show ({ s with currentSlot := c.lastFinalizedSlot } :
      SyncState).inMemoryBlocks (c.lastFinalizedSlot + 1) = none from hbuf]

lemma step_subscribed_false (db : Nat → Bool) (fuel : Nat) (s : SyncState)
    (i : SyncInput) (h : s.crystallizedSubscribed = false) :
    (step db fuel s i).1.crystallizedSubscribed = false := by
  cases i with
  | tick =>
    simp only [step]
    split
    · exact h
    · split
      · exact h
      · split
        · exact h
        · exact h
  | blockAnnounce slot =>
    simp only [step]
    split
    · exact h
    · dsimp only
      rw [raiseHighest_subscribed]
      exact h
  | blockResponse b =>
    simp only [step]
    split
    · exact h
    · rw [processBlock_subscribed]
      exact h
  | batchedBlockResponse bs =>
    simp only [step]
    split
    · exact h
    · rw [processBatchedBlocks_subscribed]
      exact h
  | crystallizedStateResponse c =>
    rw [step_crys_unsub db fuel s c h]
    exact h

lemma step_no_saveCrys_of_unsub (db : Nat → Bool) (fuel : Nat)
    (s : SyncState) (i : SyncInput) (h : s.crystallizedSubscribed = false)
    (c' : CrystallizedState) :
    Effect.saveCrystallizedState c' ∉ (step db fuel s i).2 := by
  cases i with
  | tick =>
    simp only [step]
    split
    · simp
    · split
      · simp
      · split
        · simp
        · simp
  | blockAnnounce slot =>
    simp only [step]
    split
    · simp
    · simp
  | blockResponse b =>
    simp only [step]
    split
    · simp
    · intro hmem
      have := processBlock_effects db fuel s b _ hmem
      simp [blockEffect] at this
  | batchedBlockResponse bs =>
    simp only [step]
    split
    · simp
    · intro hmem
      have := processBatchedBlocks_effects db fuel bs s _ hmem
      simp [blockEffect] at this
  | crystallizedStateResponse c =>
    rw [step_crys_unsub db fuel s c h]
    simp

lemma runInputs_no_saveCrys_of_unsub (db : Nat → Bool) (fuel : Nat) :
    ∀ inputs s, s.crystallizedSubscribed = false →
      ∀ c', Effect.saveCrystallizedState c' ∉ (runInputs db fuel s inputs).2 := by
  intro inputs
  induction inputs with
  | nil => intro s _ c'; simp [runInputs]
  | cons i rest ih =>
    intro s h c'
    simp only [runInputs, List.mem_append]
    push_neg
    exact ⟨step_no_saveCrys_of_unsub db fuel s i h c',
      ih _ (step_subscribed_false db fuel s i h) c'⟩

/-! ### Termination and the one-shot handoff -/

lemma step_terminated_absorb (db : Nat → Bool) (fuel : Nat) (s : SyncState)
    (i : SyncInput) (h : s.terminated = true) :
    step db fuel s i = (s, []) := by
  cases i <;> simp [step, h]

lemma runInputs_terminated_absorb (db : Nat → Bool) (fuel : Nat) :
    ∀ inputs s, s.terminated = true →
      runInputs db fuel s inputs = (s, []) := by
  intro inputs
  induction inputs with
  | nil => intro s _; rfl
  | cons i rest ih =>
    intro s h
    simp [runInputs, step_terminated_absorb db fuel s i h, ih s h]

lemma step_resume (db : Nat → Bool) (fuel : Nat) (s : SyncState)
    (i : SyncInput) (h : s.terminated = false) :
    (Effect.resumeSync ∉ (step db fuel s i).2 ∧
        (step db fuel s i).1.terminated = false) ∨
      ((step db fuel s i).2 = [Effect.resumeSync] ∧
        (step db fuel s i).1.terminated = true) := by
  cases i with
  | tick =>
    simp only [step]
    rw [if_neg (by simp [h])]
    split
    · exact Or.inl ⟨by simp, h⟩
    · split
      · exact Or.inr ⟨rfl, rfl⟩
      · exact Or.inl ⟨by simp, h⟩
  | blockAnnounce slot =>
    simp only [step]
    rw [if_neg (by simp [h])]
    refine Or.inl ⟨by simp, ?_⟩
    dsimp only
    rw [raiseHighest_terminated]
    exact h
  | blockResponse b =>
    simp only [step]
    rw [if_neg (by simp [h])]
    refine Or.inl ⟨?_, by rw [processBlock_terminated]; exact h⟩
    intro hmem
    have := processBlock_effects db fuel s b _ hmem
    simp [blockEffect] at this
  | batchedBlockResponse bs =>
    simp only [step]
    rw [if_neg (by simp [h])]
    refine Or.inl ⟨?_, by rw [processBatchedBlocks_terminated]; exact h⟩
    intro hmem
    have := processBatchedBlocks_effects db fuel bs s _ hmem
    simp [blockEffect] at this
  | crystallizedStateResponse c =>
    simp only [step]
    rw [if_neg (by simp [h])]
    split
    · exact Or.inl ⟨by simp, h⟩
    · split
      · exact Or.inl ⟨by simp, h⟩
      · split
        · exact Or.inl ⟨by simp, h⟩
        · split
          · exact Or.inl ⟨by simp, h⟩
          · refine Or.inl ⟨?_, ?_⟩
            · dsimp only
              intro hmem
              rcases List.mem_cons.mp hmem with heq | hmem
              · exact Effect.noConfusion heq
              · have := requestNextBlockBySlot_effects db fuel _ _ _ hmem
                simp [blockEffect] at this
            · dsimp only
              rw [requestNextBlockBySlot_terminated]
              exact h

lemma runInputs_resume_le_one (db : Nat → Bool) (fuel : Nat) :
    ∀ inputs s, s.terminated = false →
      ((runInputs db fuel s inputs).2.count Effect.resumeSync) ≤ 1 := by
  intro inputs
  induction inputs with
  | nil => intro s _; simp [runInputs]
  | cons i rest ih =>
    intro s h
    simp only [runInputs, List.count_append]
    rcases step_resume db fuel s i h with ⟨hmem, hterm⟩ | ⟨heff, hterm⟩
    · have h1 : ((step db fuel s i).2.count Effect.resumeSync) = 0 :=
        List.count_eq_zero.mpr hmem
      have h2 := ih (step db fuel s i).1 hterm
      omega
    · rw [heff, runInputs_terminated_absorb db fuel rest _ hterm]
      simp

/-! ### Single-step facts for stale and same-slot blocks, and for persist
failure -/

lemma raiseHighest_eq_self (s : SyncState) (n : Nat)
    (h : n ≤ s.highestObservedSlot) : raiseHighest s n = s := by
  unfold raiseHighest
  rw [if_neg (by omega)]

lemma processBlock_stale_eq (db : Nat → Bool) (fuel : Nat) (s : SyncState)
    (b : BeaconBlock) (hlt : b.slot < s.currentSlot) :
    processBlock db (fuel + 1) s b = (raiseHighest s b.slot, []) := by
  rw [processBlock]
  dsimp only
  rw [if_pos (by rw [raiseHighest_currentSlot]; exact hlt)]

lemma processBlock_same_slot_eq (db : Nat → Bool) (fuel : Nat)
    (s : SyncState) (b : BeaconBlock) (hpos : s.currentSlot ≠ 0)
    (heq : b.slot = s.currentSlot) :
    processBlock db (fuel + 1) s b =
      (bufferBlock (raiseHighest s b.slot) b, []) := by
  rw [processBlock]
  dsimp only
  rw [if_neg (by rw [raiseHighest_currentSlot]; omega),
    if_neg (by rw [raiseHighest_currentSlot]; exact hpos),
    if_pos (by rw [raiseHighest_currentSlot]; omega)]

lemma validateAndSaveNextBlock_fail (db : Nat → Bool) (s : SyncState)
    (b : BeaconBlock) (hpos : s.currentSlot ≠ 0)
    (hslot : b.slot = s.currentSlot + 1) (hdb : db b.slot = false) :
    validateAndSaveNextBlock db s b = (s, [Effect.saveBlock b]) := by
  unfold validateAndSaveNextBlock
  rw [if_neg hpos, if_pos hslot.symm, if_neg (by simp [hdb])]

lemma validateAndSaveNextBlock_success (db : Nat → Bool) (s : SyncState)
    (b : BeaconBlock) (hpos : s.currentSlot ≠ 0)
    (hslot : b.slot = s.currentSlot + 1) (hdb : db b.slot = true) :
    (validateAndSaveNextBlock db s b).1.currentSlot = b.slot ∧
      (validateAndSaveNextBlock db s b).2 = [Effect.saveBlock b] := by
  unfold validateAndSaveNextBlock
  rw [if_neg hpos, if_pos hslot.symm, if_pos hdb]
  exact ⟨rfl, rfl⟩

lemma processBlock_persistFail_eq (db : Nat → Bool) (fuel : Nat)
    (s : SyncState) (b : BeaconBlock) (hpos : s.currentSlot ≠ 0)
    (hslot : b.slot = s.currentSlot + 1) (hdb : db b.slot = false)
    (hbuf : s.inMemoryBlocks b.slot = none) :
    processBlock db (fuel + 1) s b =
      (raiseHighest s b.slot, [Effect.saveBlock b,
        Effect.blockRequest b.slot]) := by
  rw [processBlock]
  dsimp only
  rw [if_neg (by rw [raiseHighest_currentSlot]; omega),
    if_neg (by rw [raiseHighest_currentSlot]; exact hpos),
    if_neg (by rw [raiseHighest_currentSlot]; simpa using hslot)]
  have hv : validateAndSaveNextBlock db (raiseHighest s b.slot) b =
      (raiseHighest s b.slot, [Effect.saveBlock b]) := by
    refine validateAndSaveNextBlock_fail db _ b ?_ ?_ hdb
    · rw [raiseHighest_currentSlot]; exact hpos
    · rw [raiseHighest_currentSlot]; exact hslot
  rw [hv]
  dsimp only
  unfold requestNextBlockBySlot
  rw [show (raiseHighest s b.slot).currentSlot + 1 = b.slot by
    rw [raiseHighest_currentSlot]; omega]
  rw [raiseHighest_inMemoryBlocks, hbuf]
  rfl

/-- A single commit advances the cursor by at most one slot. -/
lemma validateAndSaveNextBlock_le (db : Nat → Bool) (s : SyncState)
    (b : BeaconBlock) :
    (validateAndSaveNextBlock db s b).1.currentSlot ≤ s.currentSlot + 1 := by
  unfold validateAndSaveNextBlock
  split
  · dsimp only; omega
  · split
    · split
      · dsimp only; omega
      · dsimp only; omega
    · dsimp only; omega

/-- Every run-loop input other than a crystallized-state response
preserves the cursor-within-observation invariant. -/
lemma step_inv_nonCrys (db : Nat → Bool) (fuel : Nat) (s : SyncState)
    (i : SyncInput)
    (hi : ∀ c, i ≠ SyncInput.crystallizedStateResponse c)
    (h : slotInv s) : slotInv (step db fuel s i).1 := by
  cases i with
  | tick =>
    simp only [step]
    split
    · exact h
    · split
      · exact h
      · split
        · unfold slotInv at *; dsimp only; exact h
        · exact h
  | blockAnnounce slot =>
    simp only [step]
    split
    · exact h
    · dsimp only
      unfold slotInv at *
      rw [raiseHighest_currentSlot, raiseHighest_highest]
      omega
  | blockResponse b =>
    simp only [step]
    split
    · exact h
    · exact processBlock_inv db fuel s b h
  | batchedBlockResponse bs =>
    simp only [step]
    split
    · exact h
    · exact processBatchedBlocks_inv db fuel bs s h
  | crystallizedStateResponse c => exact absurd rfl (hi c)

/-! ## The claims -/

/-- C1, counterexample: from the reachable state after anchoring at slot 1
(currentSlot = 1), a single crystallized-state adoption transition with
last-finalized-slot 3 moves currentSlot from 1 to 3 — an advance of 2 in
one transition, contradicting "currentSlot increases by at most 1 in a
single transition". -/
theorem claim_C1_counterexample :
    (runInputs dbOk 10 initialState
        [SyncInput.blockResponse ⟨1, 5⟩]).1.currentSlot = 1 ∧
    (step dbOk 10
        (runInputs dbOk 10 initialState [SyncInput.blockResponse ⟨1, 5⟩]).1
        (SyncInput.crystallizedStateResponse ⟨5, 3⟩)).1.currentSlot = 3 := by
  constructor <;>
    simp [runInputs, step, processBlock, requestNextBlockBySlot,
      setBlockForInitialSync, raiseHighest, bufferBlock, initialState, dbOk]

/-- C1, amended: currentSlot never decreases in any single transition of
the run loop, and a single block commit (validateAndSaveNextBlock)
advances it by at most 1; but a crystallized-state adoption transition can
advance currentSlot by more than 1 (to the state's last-finalized slot),
as the counterexample shows. -/
theorem claim_C1_amended :
    (∀ (db : Nat → Bool) (fuel : Nat) (s : SyncState) (i : SyncInput),
        s.currentSlot ≤ (step db fuel s i).1.currentSlot) ∧
    (∀ (db : Nat → Bool) (s : SyncState) (b : BeaconBlock),
        (validateAndSaveNextBlock db s b).1.currentSlot ≤
          s.currentSlot + 1) :=
  ⟨step_mono, validateAndSaveNextBlock_le⟩

/-- C2, counterexample: from the reachable state after anchoring at slot 1
(currentSlot = highestObservedSlot = 1), adopting a matching crystallized
state with last-finalized-slot 5 leaves the engine with currentSlot = 5
and highestObservedSlot = 1: both non-zero, currentSlot >
highestObservedSlot, and highestObservedSlot was not raised. -/
theorem claim_C2_counterexample :
    (runInputs dbOk 10 initialState
        [SyncInput.blockResponse ⟨1, 5⟩,
         SyncInput.crystallizedStateResponse ⟨5, 5⟩]).1.currentSlot = 5 ∧
    (runInputs dbOk 10 initialState
        [SyncInput.blockResponse ⟨1, 5⟩,
         SyncInput.crystallizedStateResponse ⟨5, 5⟩]).1.highestObservedSlot
      = 1 := by
  constructor <;>
    simp [runInputs, step, processBlock, requestNextBlockBySlot,
      setBlockForInitialSync, raiseHighest, bufferBlock, initialState, dbOk]

/-- C2, amended: every transition except a crystallized-state response
preserves currentSlot ≤ highestObservedSlot, and block processing treats a
block above the current observation as a new, higher observation (it
raises highestObservedSlot to at least the block's slot); but
crystallized-state adoption sets currentSlot to the state's
last-finalized slot without raising highestObservedSlot, so the invariant
can break in reachable states, as the counterexample shows. -/
theorem claim_C2_amended :
    (∀ (db : Nat → Bool) (fuel : Nat) (s : SyncState) (i : SyncInput),
        (∀ c, i ≠ SyncInput.crystallizedStateResponse c) →
        slotInv s → slotInv (step db fuel s i).1) ∧
    (∀ (db : Nat → Bool) (fuel : Nat) (s : SyncState) (b : BeaconBlock),
        b.slot ≤ (processBlock db (fuel + 1) s b).1.highestObservedSlot) :=
  ⟨step_inv_nonCrys, fun db fuel s b => processBlock_hos_ge db fuel s b⟩

/-- C2 witness: the amended claim applied at concrete inputs. -/
theorem claim_C2_witness :
    slotInv (step dbOk 0 initialState SyncInput.tick).1 ∧
    2 ≤ (processBlock dbOk 1 initialState ⟨2, 0⟩).1.highestObservedSlot :=
  ⟨claim_C2_amended.1 dbOk 0 initialState SyncInput.tick
      (fun _ h => SyncInput.noConfusion h) (Nat.le_refl 0),
    claim_C2_amended.2 dbOk 0 initialState ⟨2, 0⟩⟩

/-- C3: (1) from any pre-anchor state (currentSlot = 0, zero anchor root,
no buffer entry at slot 1 — as in the initial state), any run of inputs
that delivers no slot-1 block leaves the engine pre-anchor and never calls
SaveBlock; (2) a pre-anchor delivery of a block with slot ≠ 1 buffers it
under its slot key (without overwriting an existing entry); (3) a
pre-anchor delivery of a slot-1 block whose persist succeeds is accepted
as the anchor: the anchor root is set from the block, the cursor becomes
positive, and the block is persisted. -/
theorem claim_C3 :
    (∀ (db : Nat → Bool) (fuel : Nat) (inputs : List SyncInput)
        (s : SyncState), preAnchor s → (∀ i ∈ inputs, noSlotOneBlock i) →
        preAnchor (runInputs db fuel s inputs).1 ∧
          ∀ b', Effect.saveBlock b' ∉ (runInputs db fuel s inputs).2) ∧
    (∀ (db : Nat → Bool) (fuel : Nat) (s : SyncState) (b : BeaconBlock),
        preAnchor s → b.slot ≠ 1 →
        (processBlock db (fuel + 1) s b).1.inMemoryBlocks b.slot =
          (if (s.inMemoryBlocks b.slot).isSome then s.inMemoryBlocks b.slot
           else some b)) ∧
    (∀ (db : Nat → Bool) (fuel : Nat) (s : SyncState) (b : BeaconBlock),
        s.currentSlot = 0 → s.initialCrystallizedStateRoot = 0 →
        b.slot = 1 → db 1 = true →
        (processBlock db (fuel + 1) s b).1.initialCrystallizedStateRoot =
            b.crystallizedStateRoot ∧
          1 ≤ (processBlock db (fuel + 1) s b).1.currentSlot ∧
          Effect.saveBlock b ∈ (processBlock db (fuel + 1) s b).2) := by
  refine ⟨runInputs_preAnchor, ?_, processBlock_anchor_accept⟩
  intro db fuel s b h hb
  rw [processBlock_preAnchor_eq db fuel s b h hb]
  dsimp only
  rw [bufferBlock_lookup_self, raiseHighest_inMemoryBlocks]

/-- C3 witness: the claim applied at concrete inputs — a pre-anchor slot-2
delivery is buffered with no persist, and a slot-1 delivery is accepted. -/
theorem claim_C3_witness :
    (preAnchor (runInputs dbOk 2 initialState
        [SyncInput.blockResponse ⟨2, 4⟩]).1 ∧
      ∀ b', Effect.saveBlock b' ∉
        (runInputs dbOk 2 initialState [SyncInput.blockResponse ⟨2, 4⟩]).2) ∧
    ((processBlock dbOk 3 initialState ⟨2, 4⟩).1.inMemoryBlocks 2 =
      some ⟨2, 4⟩) ∧
    ((processBlock dbOk 3 initialState ⟨1, 4⟩).1.initialCrystallizedStateRoot
        = 4 ∧
      1 ≤ (processBlock dbOk 3 initialState ⟨1, 4⟩).1.currentSlot ∧
      Effect.saveBlock ⟨1, 4⟩ ∈ (processBlock dbOk 3 initialState ⟨1, 4⟩).2) := by
  refine ⟨claim_C3.1 dbOk 2 [SyncInput.blockResponse ⟨2, 4⟩] initialState
      ⟨rfl, rfl, rfl⟩ ?_, ?_, claim_C3.2.2 dbOk 2 initialState ⟨1, 4⟩
      rfl rfl rfl rfl⟩
  · intro i hi
    rw [List.mem_singleton] at hi
    subst hi
    simp [noSlotOneBlock]
  · have := claim_C3.2.1 dbOk 2 initialState ⟨2, 4⟩ ⟨rfl, rfl, rfl⟩
      (by simp)
    simpa [initialState] using this

/-- C4: while the anchor root is set (and the subscription live), a
crystallized-state response whose hash mismatches the anchor root is
discarded with no effect at all (no persist, state untouched); a matching
response whose last-finalized slot exceeds the cursor is persisted, moves
the cursor to that slot, and dispatches a request for the slot after it
(which goes to the network when that slot is not buffered). -/
theorem claim_C4 :
    ∀ (db : Nat → Bool) (fuel : Nat) (s : SyncState)
      (c : CrystallizedState),
      s.terminated = false → s.crystallizedSubscribed = true →
      s.initialCrystallizedStateRoot ≠ 0 →
      ((c.hash ≠ s.initialCrystallizedStateRoot →
          step db fuel s (SyncInput.crystallizedStateResponse c) =
            (s, [])) ∧
        (c.hash = s.initialCrystallizedStateRoot →
          s.currentSlot < c.lastFinalizedSlot →
          s.inMemoryBlocks (c.lastFinalizedSlot + 1) = none →
          (step db fuel s
              (SyncInput.crystallizedStateResponse c)).1.currentSlot =
              c.lastFinalizedSlot ∧
            (step db fuel s (SyncInput.crystallizedStateResponse c)).2 =
              [Effect.saveCrystallizedState c,
               Effect.blockRequest (c.lastFinalizedSlot + 1)])) := by
  intro db fuel s c ht hsub hroot
  refine ⟨fun hm => step_crys_mismatch db fuel s c ht hroot hm, ?_⟩
  intro hh hlt hbuf
  rw [step_crys_adopt db fuel s c ht hsub hroot hh hlt hbuf]
  exact ⟨rfl, rfl⟩

/-- C4 witness: the claim applied to the anchored state, once with a
mismatching response (discarded) and once with a matching response
finalized at slot 3 (cursor moves to 3, request for slot 4 issued). -/
theorem claim_C4_witness :
    (step dbOk 0 anchoredState
        (SyncInput.crystallizedStateResponse ⟨9, 3⟩) = (anchoredState, [])) ∧
    ((step dbOk 0 anchoredState
        (SyncInput.crystallizedStateResponse ⟨5, 3⟩)).1.currentSlot = 3 ∧
      (step dbOk 0 anchoredState
          (SyncInput.crystallizedStateResponse ⟨5, 3⟩)).2 =
        [Effect.saveCrystallizedState ⟨5, 3⟩, Effect.blockRequest 4]) :=
  ⟨(claim_C4 dbOk 0 anchoredState ⟨9, 3⟩ rfl rfl (by decide)).1 (by decide),
    (claim_C4 dbOk 0 anchoredState ⟨5, 3⟩ rfl rfl (by decide)).2 rfl
      (by decide) rfl⟩

/-- C5, counterexample: with the cursor committed at slot 2 and an empty
buffer, delivering a block of slot 2 (= currentSlot, hence ≤ currentSlot)
is not a no-op: no persist happens, but the block is inserted into the
in-memory buffer, so the engine's state changes. -/
theorem claim_C5_counterexample :
    (processBlock dbOk 10 postCommit2State ⟨2, 9⟩).2 = [] ∧
    postCommit2State.inMemoryBlocks 2 = none ∧
    (processBlock dbOk 10 postCommit2State ⟨2, 9⟩).1.inMemoryBlocks 2 =
      some ⟨2, 9⟩ := by
  refine ⟨?_, rfl, ?_⟩ <;>
    simp [processBlock, raiseHighest, bufferBlock, postCommit2State, dbOk]

/-- C5, amended: a block strictly below the cursor (and not above the
highest observation) is a full no-op — state unchanged and no effects; a
block exactly at the (positive) cursor makes no persist call and leaves
the cursor, anchor root and (up to the usual max) the highest observation
unchanged, but buffers the block under its slot key when no entry exists
there. -/
theorem claim_C5_amended :
    ∀ (db : Nat → Bool) (fuel : Nat) (s : SyncState) (b : BeaconBlock),
      (b.slot < s.currentSlot → b.slot ≤ s.highestObservedSlot →
        processBlock db (fuel + 1) s b = (s, [])) ∧
      (s.currentSlot ≠ 0 → b.slot = s.currentSlot →
        (processBlock db (fuel + 1) s b).2 = [] ∧
        (processBlock db (fuel + 1) s b).1.currentSlot = s.currentSlot ∧
        (processBlock db (fuel + 1) s b).1.initialCrystallizedStateRoot =
          s.initialCrystallizedStateRoot ∧
        (processBlock db (fuel + 1) s b).1.highestObservedSlot =
          max s.highestObservedSlot b.slot ∧
        (processBlock db (fuel + 1) s b).1.inMemoryBlocks b.slot =
          (if (s.inMemoryBlocks b.slot).isSome then s.inMemoryBlocks b.slot
           else some b)) := by
  intro db fuel s b
  constructor
  · intro hlt hle
    rw [processBlock_stale_eq db fuel s b hlt,
      raiseHighest_eq_self s b.slot hle]
  · intro hpos heq
    rw [processBlock_same_slot_eq db fuel s b hpos heq]
    refine ⟨rfl, ?_, ?_, ?_, ?_⟩
    · rw [bufferBlock_currentSlot, raiseHighest_currentSlot]
    · rw [bufferBlock_root, raiseHighest_root]
    · rw [bufferBlock_highest, raiseHighest_highest]
    · rw [bufferBlock_lookup_self, raiseHighest_inMemoryBlocks]

/-- C5 witness: the amended claim applied at the cursor-2 state — a slot-1
block is a full no-op, and a slot-2 block only gets buffered. -/
theorem claim_C5_witness :
    (processBlock dbOk 1 postCommit2State ⟨1, 0⟩ = (postCommit2State, [])) ∧
    ((processBlock dbOk 1 postCommit2State ⟨2, 9⟩).2 = [] ∧
      (processBlock dbOk 1 postCommit2State ⟨2, 9⟩).1.currentSlot = 2 ∧
      (processBlock dbOk 1 postCommit2State
          ⟨2, 9⟩).1.initialCrystallizedStateRoot = 7 ∧
      (processBlock dbOk 1 postCommit2State ⟨2, 9⟩).1.highestObservedSlot
        = 2 ∧
      (processBlock dbOk 1 postCommit2State ⟨2, 9⟩).1.inMemoryBlocks 2 =
        some ⟨2, 9⟩) := by
  have h1 := (claim_C5_amended dbOk 0 postCommit2State ⟨1, 0⟩).1
    (by decide) (by decide)
  have h2 := (claim_C5_amended dbOk 0 postCommit2State ⟨2, 9⟩).2
    (by decide) rfl
  exact ⟨h1, by simpa [postCommit2State] using h2⟩

/-- C6: from the cursor-4 state with blocks buffered at exactly slots
5, 6 and 7, one drain pass commits all three buffered blocks — the cursor
converges to 7 — and the only network request issued is for slot 8: no
request is broadcast for slots 5, 6 or 7. -/
theorem claim_C6 :
    (checkInMemoryBlocksStep dbOk 10 drainState).1.currentSlot = 7 ∧
    (checkInMemoryBlocksStep dbOk 10 drainState).2 =
      [Effect.saveBlock ⟨5, 3⟩, Effect.saveBlock ⟨6, 3⟩,
       Effect.saveBlock ⟨7, 3⟩, Effect.blockRequest 8] ∧
    Effect.blockRequest 5 ∉ (checkInMemoryBlocksStep dbOk 10 drainState).2 ∧
    Effect.blockRequest 6 ∉ (checkInMemoryBlocksStep dbOk 10 drainState).2 ∧
    Effect.blockRequest 7 ∉ (checkInMemoryBlocksStep dbOk 10 drainState).2 := by
  refine ⟨?_, ?_, ?_, ?_, ?_⟩ <;>
    simp [checkInMemoryBlocksStep, processBlock, requestNextBlockBySlot,
      setBlockForInitialSync, validateAndSaveNextBlock, raiseHighest,
      bufferBlock, drainState, dbOk]

/-- C7: a timer tick in a non-terminated, converged state with a positive
cursor performs the handoff — it emits exactly one ResumeSync call and
terminates the loop — and, over any whole run of the loop from the initial
state, ResumeSync is emitted at most once. -/
theorem claim_C7 :
    (∀ (db : Nat → Bool) (fuel : Nat) (s : SyncState),
        s.terminated = false → s.currentSlot ≠ 0 →
        s.highestObservedSlot = s.currentSlot →
        step db fuel s SyncInput.tick =
          ({ s with terminated := true }, [Effect.resumeSync])) ∧
    (∀ (db : Nat → Bool) (fuel : Nat) (inputs : List SyncInput),
        ((runInputs db fuel initialState inputs).2.count
          Effect.resumeSync) ≤ 1) := by
  constructor
  · intro db fuel s ht hpos hconv
    simp only [step]
    rw [if_neg (by simp [ht]), if_neg hpos, if_pos hconv]
  · intro db fuel inputs
    exact runInputs_resume_le_one db fuel inputs initialState rfl

/-- C7 witness: the claim applied to a concrete converged state and a
concrete run. -/
theorem claim_C7_witness :
    step dbOk 0 convergedState SyncInput.tick =
      ({ convergedState with terminated := true }, [Effect.resumeSync]) ∧
    ((runInputs dbOk 0 initialState [SyncInput.tick]).2.count
      Effect.resumeSync) ≤ 1 :=
  ⟨claim_C7.1 dbOk 0 convergedState rfl (by decide) rfl,
    claim_C7.2 dbOk 0 [SyncInput.tick]⟩

/-- C8, counterexample: after anchoring at slot 1, a matching
crystallized-state response whose last-finalized slot is not above the
cursor is persisted but does not unsubscribe, so a second identical
matching response is accepted and persisted again: two
SaveCrystallizedState calls occur and the subscription is still live
afterwards. -/
theorem claim_C8_counterexample :
    ((runInputs dbOk 10 initialState
        [SyncInput.blockResponse ⟨1, 5⟩,
         SyncInput.crystallizedStateResponse ⟨5, 1⟩,
         SyncInput.crystallizedStateResponse ⟨5, 1⟩]).2.count
      (Effect.saveCrystallizedState ⟨5, 1⟩) = 2) ∧
    ((runInputs dbOk 10 initialState
        [SyncInput.blockResponse ⟨1, 5⟩,
         SyncInput.crystallizedStateResponse ⟨5, 1⟩,
         SyncInput.crystallizedStateResponse ⟨5, 1⟩]).1.crystallizedSubscribed
      = true) := by
  constructor <;>
    simp [runInputs, step, processBlock, requestNextBlockBySlot,
      setBlockForInitialSync, raiseHighest, bufferBlock, initialState, dbOk,
      List.count_cons]

/-- C8, amended: the unsubscription happens exactly on the adopting match
(a matching response whose last-finalized slot exceeds the cursor); once
unsubscribed, crystallized-state responses are complete no-ops and no
SaveCrystallizedState call ever occurs again in the rest of the run; but a
matching-but-stale response is persisted while leaving the subscription
live, as the counterexample shows. -/
theorem claim_C8_amended :
    (∀ (db : Nat → Bool) (fuel : Nat) (s : SyncState)
        (c : CrystallizedState),
        s.terminated = false → s.crystallizedSubscribed = true →
        s.initialCrystallizedStateRoot ≠ 0 →
        c.hash = s.initialCrystallizedStateRoot →
        s.currentSlot < c.lastFinalizedSlot →
        (step db fuel s
            (SyncInput.crystallizedStateResponse c)).1.crystallizedSubscribed
          = false) ∧
    (∀ (db : Nat → Bool) (fuel : Nat) (s : SyncState)
        (c : CrystallizedState), s.crystallizedSubscribed = false →
        step db fuel s (SyncInput.crystallizedStateResponse c) = (s, [])) ∧
    (∀ (db : Nat → Bool) (fuel : Nat) (inputs : List SyncInput)
        (s : SyncState), s.crystallizedSubscribed = false →
        ∀ c', Effect.saveCrystallizedState c' ∉
          (runInputs db fuel s inputs).2) := by
  refine ⟨?_, step_crys_unsub, runInputs_no_saveCrys_of_unsub⟩
  intro db fuel s c ht hsub hroot hh hlt
  simp only [step]
  rw [if_neg (by simp [ht]), if_neg (by simp [hsub]), if_neg hroot,
    if_neg (by simpa using hh), if_neg (by omega)]

/-- C8 witness: the amended claim applied at concrete states — adoption
unsubscribes, and from an unsubscribed state a response is a no-op and a
run makes no SaveCrystallizedState call. -/
theorem claim_C8_witness :
    ((step dbOk 0 anchoredState
        (SyncInput.crystallizedStateResponse ⟨5, 3⟩)).1.crystallizedSubscribed
      = false) ∧
    (step dbOk 0 postCommit2State
        (SyncInput.crystallizedStateResponse ⟨7, 9⟩) =
      (postCommit2State, [])) ∧
    (Effect.saveCrystallizedState ⟨7, 9⟩ ∉
      (runInputs dbOk 0 postCommit2State [SyncInput.tick,
        SyncInput.crystallizedStateResponse ⟨7, 9⟩]).2) :=
  ⟨claim_C8_amended.1 dbOk 0 anchoredState ⟨5, 3⟩ rfl rfl (by decide) rfl
      (by decide),
    claim_C8_amended.2.1 dbOk 0 postCommit2State ⟨7, 9⟩ rfl,
    claim_C8_amended.2.2 dbOk 0 [SyncInput.tick,
      SyncInput.crystallizedStateResponse ⟨7, 9⟩] postCommit2State rfl ⟨7, 9⟩⟩

/-- C9, counterexample: with the cursor at 4, delivering the next expected
block (slot 5) while its persist fails leaves the cursor at 4 — not 5:
the SaveBlock call is made, but cursor advancement is conditional on the
persist succeeding, not unconditional. -/
theorem claim_C9_counterexample :
    (validateAndSaveNextBlock dbFail5 postCommit4State ⟨5, 3⟩).2 =
      [Effect.saveBlock ⟨5, 3⟩] ∧
    (validateAndSaveNextBlock dbFail5 postCommit4State ⟨5, 3⟩).1.currentSlot
      = 4 ∧
    (validateAndSaveNextBlock dbFail5 postCommit4State ⟨5, 3⟩).1.currentSlot
      ≠ 5 ∧
    (processBlock dbFail5 10 postCommit4State ⟨5, 3⟩).1.currentSlot = 4 := by
  refine ⟨?_, ?_, ?_, ?_⟩ <;>
    simp [processBlock, requestNextBlockBySlot, validateAndSaveNextBlock,
      raiseHighest, bufferBlock, postCommit4State, dbFail5]

/-- C9, amended: committing the next expected block advances the cursor
only when the persist succeeds; on persist failure the SaveBlock call is
made but the cursor is left unchanged (so there is nothing to roll back),
and the surrounding block-processing transition still completes, issuing
a fresh request for the same still-uncommitted slot. -/
theorem claim_C9_amended :
    ∀ (db : Nat → Bool) (fuel : Nat) (s : SyncState) (b : BeaconBlock),
      s.currentSlot ≠ 0 → b.slot = s.currentSlot + 1 →
      ((db b.slot = false →
          validateAndSaveNextBlock db s b = (s, [Effect.saveBlock b]) ∧
          (s.inMemoryBlocks b.slot = none →
            processBlock db (fuel + 1) s b =
              (raiseHighest s b.slot,
               [Effect.saveBlock b, Effect.blockRequest b.slot]))) ∧
        (db b.slot = true →
          (validateAndSaveNextBlock db s b).1.currentSlot = b.slot ∧
          (validateAndSaveNextBlock db s b).2 = [Effect.saveBlock b])) := by
  intro db fuel s b hpos hslot
  constructor
  · intro hdb
    exact ⟨validateAndSaveNextBlock_fail db s b hpos hslot hdb,
      fun hbuf => processBlock_persistFail_eq db fuel s b hpos hslot hdb hbuf⟩
  · intro hdb
    exact validateAndSaveNextBlock_success db s b hpos hslot hdb

/-- C9 witness: the amended claim applied at the cursor-4 state, once with
the failing oracle and once with the all-successes oracle. -/
theorem claim_C9_witness :
    (validateAndSaveNextBlock dbFail5 postCommit4State ⟨5, 3⟩ =
        (postCommit4State, [Effect.saveBlock ⟨5, 3⟩]) ∧
      processBlock dbFail5 1 postCommit4State ⟨5, 3⟩ =
        (raiseHighest postCommit4State 5,
         [Effect.saveBlock ⟨5, 3⟩, Effect.blockRequest 5])) ∧
    ((validateAndSaveNextBlock dbOk postCommit4State ⟨5, 3⟩).1.currentSlot
        = 5 ∧
      (validateAndSaveNextBlock dbOk postCommit4State ⟨5, 3⟩).2 =
        [Effect.saveBlock ⟨5, 3⟩]) := by
  have h1 := (claim_C9_amended dbFail5 0 postCommit4State ⟨5, 3⟩
    (by decide) rfl).1 (by decide)
  have h2 := (claim_C9_amended dbOk 0 postCommit4State ⟨5, 3⟩
    (by decide) rfl).2 rfl
  exact ⟨⟨h1.1, h1.2 rfl⟩, h2⟩

/-- C10: accepting a slot-1 block pre-anchor with a successful persist
(and no already-buffered block at slot 2) persists the block, sets the
anchor root from it, sets the cursor to 1, and — beyond the spec-listed
actions — also broadcasts a request for the block at slot 2 before
sending the crystallized-state request. -/
theorem claim_C10 :
    ∀ (db : Nat → Bool) (fuel : Nat) (s : SyncState) (b : BeaconBlock),
      s.currentSlot = 0 → s.initialCrystallizedStateRoot = 0 →
      b.slot = 1 → db 1 = true → s.inMemoryBlocks 2 = none →
      (processBlock db (fuel + 1) s b).1.currentSlot = 1 ∧
      (processBlock db (fuel + 1) s b).1.initialCrystallizedStateRoot =
        b.crystallizedStateRoot ∧
      (processBlock db (fuel + 1) s b).2 =
        [Effect.saveBlock b, Effect.blockRequest 2,
         Effect.stateRequest b.crystallizedStateRoot] := by
  intro db fuel s b h0 hr hb hdb hbuf
  have hc : (raiseHighest s b.slot).currentSlot = 0 := by
    rw [raiseHighest_currentSlot]; exact h0
  have hroot : (raiseHighest s b.slot).initialCrystallizedStateRoot = 0 := by
    rw [raiseHighest_root]; exact hr
  rw [processBlock]
  dsimp only
  rw [if_neg (by omega), if_pos hc, if_neg (by simp [hroot]),
    if_neg (by simp [hb])]
  unfold setBlockForInitialSync
  rw [if_pos (by rw [hb]; exact hdb)]
  unfold requestNextBlockBySlot
  dsimp only
  have hbuf2 : (raiseHighest s b.slot).inMemoryBlocks (b.slot + 1) = none := by
    rw [raiseHighest_inMemoryBlocks, hb]
    exact hbuf
  rw [hbuf2, hb]
  exact ⟨rfl, rfl, rfl⟩

/-- C10 witness: the claim applied to the initial state and a slot-1 block
with crystallized-state root 4. -/
theorem claim_C10_witness :
    (processBlock dbOk 1 initialState ⟨1, 4⟩).1.currentSlot = 1 ∧
    (processBlock dbOk 1 initialState
        ⟨1, 4⟩).1.initialCrystallizedStateRoot = 4 ∧
    (processBlock dbOk 1 initialState ⟨1, 4⟩).2 =
      [Effect.saveBlock ⟨1, 4⟩, Effect.blockRequest 2,
       Effect.stateRequest 4] :=
  claim_C10 dbOk 0 initialState ⟨1, 4⟩ rfl rfl rfl rfl rfl

end InitialSync
